import Mathlib

/-!
# Verification of the libtor directive-encoding engine

A shallow embedding of `src/libtor/src/lib.rs`: the `TorFlag` directive
enumeration, the `Expand` trait (`expand` to a token list, `expand_cli` to a
quoted single-line form), the custom `log_expand` routine, the `TorBool`
rendering, and the argument-vector construction in `Tor::start`.

The repository ships only `lib.rs`; the `libtor_derive` expansion macro and
the `utils`/`log`/`hs`/`ports` modules are not among the sources.  Where a
definition depends on them it is modelled from the specification and marked
`Modelled from the spec:` in its doc comment.  Everything else is translated
directly from the Rust source.
-/

namespace Libtor

/-- Rust `Vec::join(sep)` / `str` joining: elements concatenated with the
separator between consecutive elements, empty string for the empty list. -/
def joinSep (sep : String) : List String → String
  | [] => ""
  | [x] => x
  | x :: y :: rest => x ++ sep ++ joinSep sep (y :: rest)

/-- ASCII lowering of one character, the effect of Rust `str::to_lowercase`
on the ASCII strings produced by this program. -/
def lowerChar (c : Char) : Char :=
  if c.toNat ≥ 65 ∧ c.toNat ≤ 90 then Char.ofNat (c.toNat + 32) else c

/-- Model of Rust `str::to_lowercase` (all strings this program lowers are
ASCII, where the two functions agree). -/
def lowerStr (s : String) : String :=
  String.mk (s.data.map lowerChar)

/-- Model of Rust `str::split_whitespace` on an exploded string: maximal
runs of non-whitespace characters, in order; `acc` holds the current run
reversed. -/
def splitWsAux : List Char → List Char → List String
  | [], acc => if acc.isEmpty then [] else [String.mk acc.reverse]
  | c :: cs, acc =>
    if c.isWhitespace then
      if acc.isEmpty then splitWsAux cs [] else String.mk acc.reverse :: splitWsAux cs []
    else
      splitWsAux cs (c :: acc)

/-- Rust `str::split_whitespace` collected to a vector: one token per
whitespace-separated word, no empty tokens. -/
def rustSplitWhitespace (s : String) : List String :=
  splitWsAux s.data []

/-- `TorBool` from `lib.rs`: an enum rendered as `1` for true and `0` for
false. -/
inductive TorBool where
  | True
  | False
  | Enabled
  | Disabled
deriving DecidableEq, Repr

/-- The `Display` impl of `TorBool`: `True`/`Enabled` print `1`,
`False`/`Disabled` print `0`. -/
def TorBool.render : TorBool → String
  | .True => "1"
  | .Enabled => "1"
  | .False => "0"
  | .Disabled => "0"

/-- The `From<bool>` impl of `TorBool`. -/
def TorBool.ofBool (b : Bool) : TorBool :=
  if b then .True else .False

/-- `SizeUnit` from `lib.rs`, displayed like its `Debug` form via
`display_like_debug!`. -/
inductive SizeUnit where
  | Bytes | KBytes | MBytes | GBytes | TBytes
  | Bits | KBits | MBits | GBits | TBits
deriving DecidableEq, Repr

/-- `Display` of `SizeUnit` (equal to the derived `Debug` tag text). -/
def SizeUnit.render : SizeUnit → String
  | .Bytes => "Bytes"
  | .KBytes => "KBytes"
  | .MBytes => "MBytes"
  | .GBytes => "GBytes"
  | .TBytes => "TBytes"
  | .Bits => "Bits"
  | .KBits => "KBits"
  | .MBits => "MBits"
  | .GBits => "GBits"
  | .TBits => "TBits"

/-- `TorAddress` from `lib.rs`. -/
inductive TorAddress where
  | Port (port : Nat)
  | Address (addr : String)
  | AddressPort (addr : String) (port : Nat)
  | Unix (path : String)
deriving DecidableEq, Repr

/-- The `Display` impl of `TorAddress`. -/
def TorAddress.render : TorAddress → String
  | .Port port => toString port
  | .Address addr => addr
  | .AddressPort addr port => addr ++ ":" ++ toString port
  | .Unix path => "unix:" ++ path

/-- Modelled from the spec: the log-level enum of the missing `log` module;
levels render as their lower-cased tag text (the source formats the `Debug`
tag and lowercases). -/
inductive LogLevel where
  | Err | Warn | Notice | Info | Debug
deriving DecidableEq, Repr

/-- Derived `Debug` tag text of a `LogLevel`. -/
def LogLevel.debugTag : LogLevel → String
  | .Err => "Err"
  | .Warn => "Warn"
  | .Notice => "Notice"
  | .Info => "Info"
  | .Debug => "Debug"

/-- Modelled from the spec: the log-domain enum of the missing `log` module
(variants used by the source's tests plus representative others). -/
inductive LogDomain where
  | General | Net | Config | Handshake | Mm
deriving DecidableEq, Repr

/-- Derived `Debug` tag text of a `LogDomain`. -/
def LogDomain.debugTag : LogDomain → String
  | .General => "General"
  | .Net => "Net"
  | .Config => "Config"
  | .Handshake => "Handshake"
  | .Mm => "Mm"

/-- Modelled from the spec: the log-destination enum of the missing `log`
module; destinations render as their lower-cased tag text. -/
inductive LogDestination where
  | Stdout | Stderr | Syslog | Android
deriving DecidableEq, Repr

/-- Derived `Debug` tag text of a `LogDestination`. -/
def LogDestination.debugTag : LogDestination → String
  | .Stdout => "Stdout"
  | .Stderr => "Stderr"
  | .Syslog => "Syslog"
  | .Android => "Android"

/-- `Expand::expand_cli` from `lib.rs`, as a function of the token list it
reads through `self.expand()`: when more than one token exists, all tokens
after the first are drained, joined with single spaces, wrapped in double
quotes and pushed back as the sole second token; the result is the
space-join of what remains. -/
def expandCli (parts : List String) : String :=
  if 1 < parts.length then
    joinSep " " (parts.take 1 ++ ["\"" ++ joinSep " " (parts.drop 1) ++ "\""])
  else
    joinSep " " parts

/-- Modelled from the spec: the sub-flag enum for `ControlPort` directives
from the missing `ports` module, displayed as its tag text. -/
inductive ControlPortFlag where
  | GroupWritable | WorldWritable | RelaxDirModeCheck
deriving DecidableEq, Repr

/-- Tag text of a `ControlPortFlag`. -/
def ControlPortFlag.render : ControlPortFlag → String
  | .GroupWritable => "GroupWritable"
  | .WorldWritable => "WorldWritable"
  | .RelaxDirModeCheck => "RelaxDirModeCheck"

/-- Modelled from the spec: the sub-flag enum for `SocksPort` directives
from the missing `ports` module, displayed as its tag text. -/
inductive SocksPortFlag where
  | NoIPv4Traffic | IPv6Traffic | PreferIPv6 | NoDNSRequest
deriving DecidableEq, Repr

/-- Tag text of a `SocksPortFlag`. -/
def SocksPortFlag.render : SocksPortFlag → String
  | .NoIPv4Traffic => "NoIPv4Traffic"
  | .IPv6Traffic => "IPv6Traffic"
  | .PreferIPv6 => "PreferIPv6"
  | .NoDNSRequest => "NoDNSRequest"

/-- Modelled from the spec: the isolation sub-flag enum for `SocksPort`
directives from the missing `ports` module, displayed as its tag text. -/
inductive SocksPortIsolationFlag where
  | IsolateClientAddr | IsolateSOCKSAuth | IsolateClientProtocol | IsolateDestPort | IsolateDestAddr
deriving DecidableEq, Repr

/-- Tag text of a `SocksPortIsolationFlag`. -/
def SocksPortIsolationFlag.render : SocksPortIsolationFlag → String
  | .IsolateClientAddr => "IsolateClientAddr"
  | .IsolateSOCKSAuth => "IsolateSOCKSAuth"
  | .IsolateClientProtocol => "IsolateClientProtocol"
  | .IsolateDestPort => "IsolateDestPort"
  | .IsolateDestAddr => "IsolateDestAddr"

/-- Modelled from the spec: the hidden-service version enum of the missing
`hs` module (versions 2 and 3, rendered as the bare number). -/
inductive HiddenServiceVersion where
  | V2 | V3
deriving DecidableEq, Repr

/-- Rendering of a `HiddenServiceVersion` (the numeric value). -/
def HiddenServiceVersion.render : HiddenServiceVersion → String
  | .V2 => "2"
  | .V3 => "3"

/-- Modelled from the spec: the hidden-service client-authorization type of
the missing `hs` module, rendered through `Debug` as its tag text. -/
inductive HiddenServiceAuthType where
  | Basic | Stealth
deriving DecidableEq, Repr

/-- Derived `Debug` tag text of a `HiddenServiceAuthType`. -/
def HiddenServiceAuthType.debugTag : HiddenServiceAuthType → String
  | .Basic => "Basic"
  | .Stealth => "Stealth"

/-- Modelled from the spec: the `DisplayOption` renderer of the missing
`utils` module — empty string when absent, the inner rendering verbatim when
present. -/
def displayOption : Option String → String
  | none => ""
  | some s => s

/-- Modelled from the spec: the `DisplayVec` renderer of the missing
`utils` module — elements rendered and joined by the joiner policy's
separator, empty string for the empty sequence. -/
def displayVec (sep : String) (render : α → String) (xs : List α) : String :=
  joinSep sep (xs.map render)

/-- `TorFlag` from `lib.rs`: the closed enumeration of configuration
directives.  Field types follow the source (`u16`/`u32`/`usize` are modelled
as `Nat`; `DisplayOption`/`DisplayVec` wrappers as `Option`/`List`). -/
inductive TorFlag where
  | ConfigFile (file : String)
  | PassphraseFD (fd : Nat)
  | BandwidthRate (n : Nat) (unit : SizeUnit)
  | BandwidthBurst (n : Nat) (unit : SizeUnit)
  | DisableNetwork (b : TorBool)
  | ControlPort (port : Nat)
  | ControlPortAuto
  | ControlPortAddress (addr : TorAddress) (flags : Option (List ControlPortFlag))
  | ControlSocket (path : String)
  | ControlSocketsGroupWritable (b : TorBool)
  | HashedControlPassword (pw : String)
  | CookieAuthentication (b : TorBool)
  | CookieAuthFile (file : String)
  | CookieAuthFileGroupReadable (b : TorBool)
  | ControlPortWriteToFile (file : String)
  | ControlPortFileGroupReadable (b : TorBool)
  | DataDirectory (dir : String)
  | DataDirectoryGroupReadable (b : TorBool)
  | CacheDirectory (dir : String)
  | CacheDirectoryGroupReadable (s : String)
  | HTTPSProxy (proxy : String)
  | HTTPSProxyAuthenticator (user : String) (pass : String)
  | Socks4Proxy (proxy : String)
  | Socks5Proxy (proxy : String)
  | Socks5ProxyUsername (user : String)
  | Socks5ProxyPassword (pass : String)
  | UnixSocksGroupWritable (b : TorBool)
  | KeepalivePeriod (n : Nat)
  | Log (level : LogLevel)
  | LogTo (level : LogLevel) (dest : LogDestination)
  | LogExpanded (levels : List (List (Bool × LogDomain) × LogLevel)) (dest : LogDestination)
  | LogMessageDomains (b : TorBool)
  | LogTimeGranularity (n : Nat)
  | TruncateLogFile (b : TorBool)
  | SyslogIdentityTag (tag : String)
  | AndroidIdentityTag (tag : String)
  | SafeLogging (b : TorBool)
  | PidFile (file : String)
  | ProtocolWarnings (b : TorBool)
  | User (user : String)
  | NoExec (b : TorBool)
  | Bridge (transport : String) (addr : String) (fingerprint : String)
  | ConnectionPadding (b : TorBool)
  | ReducedConnectionPadding (b : TorBool)
  | CircuitPadding (b : TorBool)
  | ReducedCircuitPadding (b : TorBool)
  | ExcludeNodes (nodes : List String)
  | ExcludeExitNodes (nodes : List String)
  | ExitNodes (nodes : List String)
  | MiddleNodes (nodes : List String)
  | EntryNodes (nodes : List String)
  | StrictNodes (b : TorBool)
  | FascistFirewall (b : TorBool)
  | FirewallPorts (ports : List Nat)
  | MapAddress (from_addr : String) (to_addr : String)
  | NewCircuitPeriod (n : Nat)
  | SocksPort (port : Nat)
  | SocksPortAuto
  | SocksPortAddress (addr : TorAddress) (flags : Option (List SocksPortFlag))
      (isolation : Option (List SocksPortIsolationFlag))
  | SocksTimeout (n : Nat)
  | SafeSocks (b : TorBool)
  | TestSocks (b : TorBool)
  | UpdateBridgesFromAuthority (b : TorBool)
  | UseBridges (b : TorBool)
  | HiddenServiceDir (dir : String)
  | HiddenServicePort (addr : TorAddress) (target : Option TorAddress)
  | HiddenServiceVersion (v : HiddenServiceVersion)
  | HiddenServiceAuthorizeClient (ty : HiddenServiceAuthType) (clients : List String)
  | HiddenServiceAllowUnknownPorts (b : TorBool)
  | HiddenServiceMaxStreams (n : Nat)
  | HiddenServiceMaxStreamsCloseCircuit (b : TorBool)
  | Custom (s : String)

/-- The innermost closure of `log_expand` from `lib.rs`: one domain entry
rendered as its `Debug` tag, preceded by `~` when disabled. -/
def logDomainItem (d : Bool × LogDomain) : String :=
  (if d.1 then "" else "~") ++ d.2.debugTag

/-- The per-group closure of `log_expand` from `lib.rs`: the domain list
comma-joined, wrapped in brackets when the joined string is non-empty,
followed by the level's `Debug` tag, the whole group lower-cased. -/
def logGroupStr (g : List (Bool × LogDomain) × LogLevel) : String :=
  let concatStr := joinSep "," (g.1.map logDomainItem)
  let bracketed := if ¬ (concatStr = "") then "[" ++ concatStr ++ "]" else concatStr
  lowerStr (bracketed ++ g.2.debugTag)

/-- The body of `log_expand` from `lib.rs`, after its `match` has extracted
the `(levels, dest)` pair: the groups joined by single spaces, the
lower-cased destination (preceded by a space) appended when present, the
whole body paired with the literal `Log` token. -/
def logExpandCore (levels : List (List (Bool × LogDomain) × LogLevel))
    (dest : Option LogDestination) : List String :=
  let levelsStr := joinSep " " (levels.map logGroupStr)
  let destStr :=
    match dest with
    | some d => lowerStr (" " ++ d.debugTag)
    | none => ""
  ["Log", levelsStr ++ destStr]

/-- `log_expand` from `lib.rs` as written: it matches the flag, reaching the
`unimplemented!()` catch-all (modelled as `none`) for any flag outside the
`Log`/`LogTo`/`LogExpanded` family. -/
def logExpand : TorFlag → Option (List String)
  | .Log level => some (logExpandCore [([], level)] none)
  | .LogTo level dest => some (logExpandCore [([], level)] (some dest))
  | .LogExpanded levels dest => some (logExpandCore levels (some dest))
  | _ => none

/-- `Expand::expand` for `TorFlag`.  Modelled from the spec: the
`#[derive(Expand)]` implementation lives in the missing `libtor_derive`
crate.  The default rule emits the variant's tag followed by each field's
rendering in declaration order; an `#[expand_to("...")]` template (taken
from the attributes in `lib.rs`) emits the template's literal words with
placeholders substituted in order; `#[expand_to(rename)]` changes the
leading tag; the log family delegates to `log_expand`; `Custom` splits its
body on whitespace. -/
def TorFlag.expand : TorFlag → List String
  | .ConfigFile file => ["-f", file]
  | .PassphraseFD fd => ["--passphrase-fd", toString fd]
  | .BandwidthRate n unit => ["BandwidthRate", toString n, unit.render]
  | .BandwidthBurst n unit => ["BandwidthBurst", toString n, unit.render]
  | .DisableNetwork b => ["DisableNetwork", b.render]
  | .ControlPort port => ["ControlPort", toString port]
  | .ControlPortAuto => ["ControlPort", "auto"]
  | .ControlPortAddress addr flags =>
    ["ControlPort", addr.render,
      displayOption (flags.map (displayVec " " ControlPortFlag.render))]
  | .ControlSocket path => ["ControlSocket", path]
  | .ControlSocketsGroupWritable b => ["ControlSocketsGroupWritable", b.render]
  | .HashedControlPassword pw => ["HashedControlPassword", pw]
  | .CookieAuthentication b => ["CookieAuthentication", b.render]
  | .CookieAuthFile file => ["CookieAuthFile", file]
  | .CookieAuthFileGroupReadable b => ["CookieAuthFileGroupReadable", b.render]
  | .ControlPortWriteToFile file => ["ControlPortWriteToFile", file]
  | .ControlPortFileGroupReadable b => ["ControlPortFileGroupReadable", b.render]
  | .DataDirectory dir => ["DataDirectory", dir]
  | .DataDirectoryGroupReadable b => ["DataDirectoryGroupReadable", b.render]
  | .CacheDirectory dir => ["CacheDirectory", dir]
  | .CacheDirectoryGroupReadable s => ["CacheDirectoryGroupReadable", s]
  | .HTTPSProxy proxy => ["HTTPSProxy", proxy]
  | .HTTPSProxyAuthenticator user pass => ["HTTPSProxyAuthenticator", user ++ ":" ++ pass]
  | .Socks4Proxy proxy => ["Socks4Proxy", proxy]
  | .Socks5Proxy proxy => ["Socks5Proxy", proxy]
  | .Socks5ProxyUsername user => ["Socks5ProxyUsername", user]
  | .Socks5ProxyPassword pass => ["Socks5ProxyPassword", pass]
  | .UnixSocksGroupWritable b => ["UnixSocksGroupWritable", b.render]
  | .KeepalivePeriod n => ["KeepalivePeriod", toString n]
  | .Log level => logExpandCore [([], level)] none
  | .LogTo level dest => logExpandCore [([], level)] (some dest)
  | .LogExpanded levels dest => logExpandCore levels (some dest)
  | .LogMessageDomains b => ["LogMessageDomains", b.render]
  | .LogTimeGranularity n => ["LogTimeGranularity", toString n]
  | .TruncateLogFile b => ["TruncateLogFile", b.render]
  | .SyslogIdentityTag tag => ["SyslogIdentityTag", tag]
  | .AndroidIdentityTag tag => ["AndroidIdentityTag", tag]
  | .SafeLogging b => ["SafeLogging", b.render]
  | .PidFile file => ["PidFile", file]
  | .ProtocolWarnings b => ["ProtocolWarnings", b.render]
  | .User user => ["User", user]
  | .NoExec b => ["NoExec", b.render]
  | .Bridge transport addr fingerprint => ["Bridge", transport, addr, fingerprint]
  | .ConnectionPadding b => ["ConnectionPadding", b.render]
  | .ReducedConnectionPadding b => ["ReducedConnectionPadding", b.render]
  | .CircuitPadding b => ["CircuitPadding", b.render]
  | .ReducedCircuitPadding b => ["ReducedCircuitPadding", b.render]
  | .ExcludeNodes nodes => ["ExcludeNodes", displayVec "," id nodes]
  | .ExcludeExitNodes nodes => ["ExcludeExitNodes", displayVec "," id nodes]
  | .ExitNodes nodes => ["ExitNodes", displayVec "," id nodes]
  | .MiddleNodes nodes => ["MiddleNodes", displayVec "," id nodes]
  | .EntryNodes nodes => ["EntryNodes", displayVec "," id nodes]
  | .StrictNodes b => ["StrictNodes", b.render]
  | .FascistFirewall b => ["FascistFirewall", b.render]
  | .FirewallPorts ports => ["FirewallPorts", displayVec "," toString ports]
  | .MapAddress from_addr to_addr => ["MapAddress", from_addr, to_addr]
  | .NewCircuitPeriod n => ["NewCircuitPeriod", toString n]
  | .SocksPort port => ["SocksPort", toString port]
  | .SocksPortAuto => ["SocksPort", "auto"]
  | .SocksPortAddress addr flags isolation =>
    ["SocksPort", addr.render,
      displayOption (flags.map (displayVec " " SocksPortFlag.render)),
      displayOption (isolation.map (displayVec " " SocksPortIsolationFlag.render))]
  | .SocksTimeout n => ["SocksTimeout", toString n]
  | .SafeSocks b => ["SafeSocks", b.render]
  | .TestSocks b => ["TestSocks", b.render]
  | .UpdateBridgesFromAuthority b => ["UpdateBridgesFromAuthority", b.render]
  | .UseBridges b => ["UseBridges", b.render]
  | .HiddenServiceDir dir => ["HiddenServiceDir", dir]
  | .HiddenServicePort addr target =>
    ["HiddenServicePort", addr.render, displayOption (target.map TorAddress.render)]
  | .HiddenServiceVersion v => ["HiddenServiceVersion", v.render]
  | .HiddenServiceAuthorizeClient ty clients =>
    ["HiddenServiceAuthorizeClient", ty.debugTag, displayVec "," id clients]
  | .HiddenServiceAllowUnknownPorts b => ["HiddenServiceAllowUnknownPorts", b.render]
  | .HiddenServiceMaxStreams n => ["HiddenServiceMaxStreams", toString n]
  | .HiddenServiceMaxStreamsCloseCircuit b => ["HiddenServiceMaxStreamsCloseCircuit", b.render]
  | .Custom s => rustSplitWhitespace s

/-- `Expand::expand_cli` applied to a `TorFlag`. -/
def TorFlag.expand_cli (f : TorFlag) : String :=
  expandCli f.expand

/-- Whether a flag is the free-form `Custom` variant. -/
def TorFlag.isCustom : TorFlag → Bool
  | .Custom _ => true
  | _ => false

/-- The `Error` enum from `lib.rs`. -/
inductive Error where
  | NotRunning
deriving DecidableEq, Repr

/-- The `Tor` configuration builder from `lib.rs`: an ordered flag list. -/
structure Tor where
  flags : List TorFlag

/-- `Tor::new()`. -/
def Tor.new : Tor := ⟨[]⟩

/-- `Tor::flag`: append one directive. -/
def Tor.flag (t : Tor) (f : TorFlag) : Tor := ⟨t.flags ++ [f]⟩

/-- The argument vector built inside `Tor::start`: `"tor"` followed by the
flattening of each directive's expansion, in order. -/
def torArgv (flags : List TorFlag) : List String :=
  "tor" :: (flags.map TorFlag.expand).flatten

/-- Model of `CString::new`: fails (the source unwraps, i.e. panics) exactly
when the string contains a NUL byte. -/
def cstringNew (s : String) : Option String :=
  if (Char.ofNat 0) ∈ s.data then none else some s

/-- `Tor::start` from `lib.rs`.  The `tor_sys` collaborator is out of scope
and passed in as an opaque function from the argument vector to the daemon's
exit status; the `CString::new(..).unwrap()` panic is modelled as `none`;
the `as u8` cast is the low byte of the status.  On the non-panicking path
the function always returns `Except.ok`. -/
def Tor.start (t : Tor) (torRunMain : List String → Nat) : Option (Except Error Nat) :=
  let argv := torArgv t.flags
  if (argv.map cstringNew).all Option.isSome then
    some (Except.ok (torRunMain argv % 256))
  else
    none

/-! ## Specification-side renderings

The following definitions restate, in the words of the specification, how a
log directive's argument body is assembled; they are compared with the
source-derived `logExpandCore` in the theorems below. -/

/-- Lower-cased tag of a `LogLevel`, as the spec renders levels. -/
def LogLevel.lowerTag : LogLevel → String
  | .Err => "err"
  | .Warn => "warn"
  | .Notice => "notice"
  | .Info => "info"
  | .Debug => "debug"

/-- Lower-cased tag of a `LogDomain`, as the spec renders domains. -/
def LogDomain.lowerTag : LogDomain → String
  | .General => "general"
  | .Net => "net"
  | .Config => "config"
  | .Handshake => "handshake"
  | .Mm => "mm"

/-- Lower-cased tag of a `LogDestination`, as the spec renders
destinations. -/
def LogDestination.lowerTag : LogDestination → String
  | .Stdout => "stdout"
  | .Stderr => "stderr"
  | .Syslog => "syslog"
  | .Android => "android"

/-- Spec-side rendering of one `(domain-list, level)` group: a
bracket-enclosed comma-joined sequence of domain tags, each prefixed by `~`
when disabled, immediately followed by the level tag; just the level tag
when the domain list is empty. -/
def specLogGroup (domains : List (Bool × LogDomain)) (level : LogLevel) : String :=
  if domains = [] then
    level.lowerTag
  else
    "[" ++ joinSep "," (domains.map fun d => (if d.1 then "" else "~") ++ d.2.lowerTag) ++ "]"
      ++ level.lowerTag

/-- Spec-side rendering of a whole log argument body: the groups joined by
single spaces, then the lower-cased destination after a single space when
present. -/
def specLogBody (levels : List (List (Bool × LogDomain) × LogLevel))
    (dest : Option LogDestination) : String :=
  joinSep " " (levels.map fun g => specLogGroup g.1 g.2)
    ++ (match dest with
        | some d => " " ++ d.lowerTag
        | none => "")

/-! ## Helper lemmas -/

theorem lowerStr_append (a b : String) : lowerStr (a ++ b) = lowerStr a ++ lowerStr b := by
  apply String.ext
  simp [lowerStr, String.data_append]

theorem lowerStr_empty : lowerStr "" = "" := rfl

theorem joinSep_cons_cons (sep x y : String) (rest : List String) :
    joinSep sep (x :: y :: rest) = x ++ sep ++ joinSep sep (y :: rest) := rfl

theorem lowerStr_joinSep (sep : String) (l : List String) :
    lowerStr (joinSep sep l) = joinSep (lowerStr sep) (l.map lowerStr) := by
  induction l with
  | nil => rfl
  | cons x rest ih =>
    cases rest with
    | nil => rfl
    | cons y rest2 =>
      simp only [List.map, joinSep_cons_cons, lowerStr_append]
      rw [← List.map, ih]

theorem string_ne_empty_of_data_ne_nil {s : String} (h : s.data ≠ []) : s ≠ "" := by
  intro he
  exact h (by simp [he])

theorem append_ne_empty_left {a : String} (b : String) (h : a ≠ "") : a ++ b ≠ "" := by
  apply string_ne_empty_of_data_ne_nil
  rw [String.data_append]
  intro hd
  rcases List.append_eq_nil.mp hd with ⟨ha, _⟩
  exact h (by apply String.ext; simp [ha])

theorem joinSep_ne_empty (sep : String) (l : List String) (hne : l ≠ [])
    (hmem : ∀ x ∈ l, x ≠ "") : joinSep sep l ≠ "" := by
  match l with
  | [] => exact absurd rfl hne
  | [x] => exact hmem x (List.mem_singleton_self x)
  | x :: y :: rest =>
    rw [joinSep_cons_cons]
    exact append_ne_empty_left _ (append_ne_empty_left _ (hmem x (by simp)))

theorem logDomainItem_ne_empty (d : Bool × LogDomain) : logDomainItem d ≠ "" := by
  rcases d with ⟨b, dom⟩
  cases b <;> cases dom <;> decide

theorem lowerStr_logDomainItem (d : Bool × LogDomain) :
    lowerStr (logDomainItem d) = (if d.1 then "" else "~") ++ d.2.lowerTag := by
  rcases d with ⟨b, dom⟩
  cases b <;> cases dom <;> decide

theorem lowerStr_levelTag (lv : LogLevel) : lowerStr lv.debugTag = lv.lowerTag := by
  cases lv <;> decide

theorem lowerStr_destSpace (d : LogDestination) :
    lowerStr (" " ++ d.debugTag) = " " ++ d.lowerTag := by
  cases d <;> decide

theorem logGroupStr_eq (g : List (Bool × LogDomain) × LogLevel) :
    logGroupStr g = specLogGroup g.1 g.2 := by
  rcases g with ⟨domains, level⟩
  cases domains with
  | nil => cases level <;> decide
  | cons d ds =>
    have hne : ¬ (joinSep "," ((d :: ds).map logDomainItem) = "") :=
      joinSep_ne_empty "," _ (by simp) (by
        intro x hx
        rcases List.mem_map.mp hx with ⟨y, _, rfl⟩
        exact logDomainItem_ne_empty y)
    simp only [logGroupStr, specLogGroup]
    rw [if_pos hne, if_neg (by simp : ¬ (d :: ds = []))]
    rw [lowerStr_append, lowerStr_append, lowerStr_append, lowerStr_levelTag, lowerStr_joinSep]
    rw [List.map_map]
    have hcomp : lowerStr ∘ logDomainItem
        = fun x : Bool × LogDomain => (if x.1 then "" else "~") ++ x.2.lowerTag :=
      funext lowerStr_logDomainItem
    rw [hcomp]
    rfl

theorem logExpandCore_eq (levels : List (List (Bool × LogDomain) × LogLevel))
    (dest : Option LogDestination) :
    logExpandCore levels dest = ["Log", specLogBody levels dest] := by
  simp only [logExpandCore, specLogBody]
  have hfun : logGroupStr = fun (g : List (Bool × LogDomain) × LogLevel) => specLogGroup g.1 g.2 :=
    funext logGroupStr_eq
  rw [hfun]
  cases dest with
  | none => rfl
  | some d => simp only [lowerStr_destSpace]

theorem expandCli_eq_of_one (x : String) : expandCli [x] = x := rfl

theorem expandCli_cons_cons (x y : String) (rest : List String) :
    expandCli (x :: y :: rest) = x ++ " " ++ ("\"" ++ joinSep " " (y :: rest) ++ "\"") := by
  have h : 1 < (x :: y :: rest).length := by
    simp [List.length_cons]
  simp only [expandCli]
  rw [if_pos h]
  rfl

theorem expandCli_spec_list (parts : List String) :
    (1 < parts.length →
      expandCli parts = parts.headD "" ++ " " ++ ("\"" ++ joinSep " " parts.tail ++ "\""))
    ∧ (parts.length = 1 → expandCli parts = parts.headD "") := by
  match parts with
  | [] => exact ⟨fun h => by simp at h, fun h => by simp at h⟩
  | [x] => exact ⟨fun h => by simp at h, fun _ => expandCli_eq_of_one x⟩
  | x :: y :: rest =>
    exact ⟨fun _ => expandCli_cons_cons x y rest, fun h => by simp [List.length_cons] at h⟩

theorem splitWsAux_ne_nil (l : List Char) : ∀ acc : List Char,
    ((∃ c ∈ l, c.isWhitespace = false) ∨ acc ≠ []) → splitWsAux l acc ≠ [] := by
  induction l with
  | nil =>
    intro acc h
    rcases h with ⟨c, hc, _⟩ | hacc
    · simp at hc
    · simp only [splitWsAux]
      rw [if_neg (by simpa [List.isEmpty_iff] using hacc)]
      simp
  | cons c cs ih =>
    intro acc h
    simp only [splitWsAux]
    by_cases hws : c.isWhitespace = true
    · rw [if_pos hws]
      by_cases hacc : acc.isEmpty = true
      · rw [if_pos hacc]
        apply ih
        left
        rcases h with ⟨c', hc', hcw⟩ | hne
        · rcases List.mem_cons.mp hc' with rfl | hmem
          · rw [hws] at hcw; cases hcw
          · exact ⟨c', hmem, hcw⟩
        · exact absurd (List.isEmpty_iff.mp hacc) hne
      · rw [if_neg hacc]
        simp
    · rw [if_neg hws]
      apply ih
      right
      simp

theorem splitWsAux_tokens (l : List Char) : ∀ acc : List Char,
    (∀ c ∈ acc, c.isWhitespace = false) →
    ∀ t ∈ splitWsAux l acc, t ≠ "" ∧ ∀ c ∈ t.data, c.isWhitespace = false := by
  induction l with
  | nil =>
    intro acc hacc t ht
    simp only [splitWsAux] at ht
    by_cases he : acc.isEmpty = true
    · rw [if_pos he] at ht
      simp at ht
    · rw [if_neg he] at ht
      rcases List.mem_singleton.mp ht with rfl
      constructor
      · apply string_ne_empty_of_data_ne_nil
        show acc.reverse ≠ []
        simpa [List.isEmpty_iff] using he
      · intro c hc
        exact hacc c (List.mem_reverse.mp hc)
  | cons c cs ih =>
    intro acc hacc t ht
    simp only [splitWsAux] at ht
    by_cases hws : c.isWhitespace = true
    · rw [if_pos hws] at ht
      by_cases he : acc.isEmpty = true
      · rw [if_pos he] at ht
        exact ih [] (by simp) t ht
      · rw [if_neg he] at ht
        rcases List.mem_cons.mp ht with rfl | hmem
        · constructor
          · apply string_ne_empty_of_data_ne_nil
            show acc.reverse ≠ []
            simpa [List.isEmpty_iff] using he
          · intro c' hc'
            exact hacc c' (List.mem_reverse.mp hc')
        · exact ih [] (by simp) t hmem
    · rw [if_neg hws] at ht
      refine ih (c :: acc) ?_ t ht
      intro c' hc'
      rcases List.mem_cons.mp hc' with rfl | hmem
      · simpa using hws
      · exact hacc c' hmem

/-! ## Claims -/

/-- C1: for every directive, `expand_cli` applied to its token list yields
the first token, a single space, and the remaining tokens joined by single
spaces wrapped in one pair of double quotes when the list has more than one
token, and the sole token unchanged when the list has exactly one token. -/
theorem expand_cli_spec (f : TorFlag) :
    (1 < f.expand.length →
      f.expand_cli = f.expand.headD "" ++ " " ++ ("\"" ++ joinSep " " f.expand.tail ++ "\""))
    ∧ (f.expand.length = 1 → f.expand_cli = f.expand.headD "") :=
  expandCli_spec_list f.expand

theorem expand_cli_spec_witness :
    TorFlag.expand_cli (TorFlag.DisableNetwork TorBool.True) = "DisableNetwork \"1\""
    ∧ TorFlag.expand_cli (TorFlag.Custom "xyz") = "xyz" := by
  constructor
  · exact ((expand_cli_spec (TorFlag.DisableNetwork TorBool.True)).1 (by decide)).trans (by decide)
  · exact ((expand_cli_spec (TorFlag.Custom "xyz")).2 (by decide)).trans (by decide)

/-- C2: every log directive expands to the two-token list `Log` plus a body
rendering each group as bracketed comma-joined (optionally `~`-negated)
domain tags followed by the lower-cased level tag (just the level tag for
an empty domain list), groups space-joined, with the lower-cased
destination appended after a space when present; the bare-level,
level-plus-destination and three-group examples render as in the spec. -/
theorem log_expansion_spec :
    (∀ levels dest, TorFlag.expand (TorFlag.LogExpanded levels dest)
      = ["Log", specLogBody levels (some dest)])
    ∧ (∀ level, TorFlag.expand (TorFlag.Log level) = ["Log", specLogBody [([], level)] none])
    ∧ (∀ level dest, TorFlag.expand (TorFlag.LogTo level dest)
      = ["Log", specLogBody [([], level)] (some dest)])
    ∧ TorFlag.expand_cli (TorFlag.Log LogLevel.Notice) = "Log \"notice\""
    ∧ TorFlag.expand_cli (TorFlag.LogTo LogLevel.Notice LogDestination.Stdout)
      = "Log \"notice stdout\""
    ∧ TorFlag.expand_cli (TorFlag.LogExpanded
        [([(true, LogDomain.Handshake)], LogLevel.Debug),
         ([(false, LogDomain.Net), (false, LogDomain.Mm)], LogLevel.Info),
         ([], LogLevel.Notice)] LogDestination.Stdout)
      = "Log \"[handshake]debug [~net,~mm]info notice stdout\"" := by
  refine ⟨fun levels dest => logExpandCore_eq levels (some dest),
    fun level => logExpandCore_eq [([], level)] none,
    fun level dest => logExpandCore_eq [([], level)] (some dest),
    by decide, by decide, by decide⟩

/-- C3: the process-argument vector is `tor` followed by the concatenation
of each directive's token list in directive order; excluding the program
name its length is the sum of the per-directive token counts. -/
theorem torArgv_spec (flags : List TorFlag) :
    (torArgv flags).headD "" = "tor"
    ∧ (torArgv flags).tail = (flags.map TorFlag.expand).flatten
    ∧ (torArgv flags).tail.length = (flags.map fun f => f.expand.length).sum := by
  refine ⟨rfl, rfl, ?_⟩
  show ((flags.map TorFlag.expand).flatten).length = _
  rw [List.length_flatten, List.map_map]
  rfl

/-- C4 counterexample: the Custom directive with an empty body expands to
the empty token list, refuting non-emptiness for every directive. -/
theorem expand_custom_empty_nil : TorFlag.expand (TorFlag.Custom "") = [] := rfl

/-- C4 (amended): every directive other than the Custom variant expands to
a non-empty token list, and a Custom directive does whenever its body
contains at least one non-whitespace character. -/
theorem expand_ne_nil_amended :
    (∀ f : TorFlag, f.isCustom = false → f.expand ≠ [])
    ∧ (∀ s : String, (∃ c ∈ s.data, c.isWhitespace = false) →
        TorFlag.expand (TorFlag.Custom s) ≠ []) := by
  constructor
  · intro f h
    cases f <;> simp_all [TorFlag.isCustom, TorFlag.expand, logExpandCore]
  · intro s hs
    exact splitWsAux_ne_nil s.data [] (Or.inl hs)

theorem expand_ne_nil_amended_witness :
    TorFlag.expand TorFlag.ControlPortAuto ≠ [] ∧ TorFlag.expand (TorFlag.Custom "x") ≠ [] :=
  ⟨expand_ne_nil_amended.1 TorFlag.ControlPortAuto rfl,
   expand_ne_nil_amended.2 "x" ⟨'x', by decide, by decide⟩⟩

/-- C5 counterexample: `ControlPortAuto` carries zero extra fields, yet its
`expand_cli` output contains double quotes and is neither its variant tag
nor its canonical name. -/
theorem controlPortAuto_cli_quoted :
    TorFlag.expand_cli TorFlag.ControlPortAuto = "ControlPort \"auto\""
    ∧ '"' ∈ (TorFlag.expand_cli TorFlag.ControlPortAuto).data
    ∧ TorFlag.expand_cli TorFlag.ControlPortAuto ≠ "ControlPortAuto"
    ∧ TorFlag.expand_cli TorFlag.ControlPortAuto ≠ "ControlPort" := by
  refine ⟨by decide, by decide, by decide, by decide⟩

/-- C5 (amended): the zero-field directives `ControlPortAuto` and
`SocksPortAuto` expand through their two-word templates to a canonical name
plus the literal word `auto`, so `expand_cli` renders them as the name
followed by a quoted `auto`. -/
theorem zero_field_cli_amended :
    TorFlag.expand TorFlag.ControlPortAuto = ["ControlPort", "auto"]
    ∧ TorFlag.expand TorFlag.SocksPortAuto = ["SocksPort", "auto"]
    ∧ TorFlag.expand_cli TorFlag.ControlPortAuto = "ControlPort \"auto\""
    ∧ TorFlag.expand_cli TorFlag.SocksPortAuto = "SocksPort \"auto\"" := by
  refine ⟨rfl, rfl, by decide, by decide⟩

/-- C6: the Custom directive's token list is its body split on whitespace:
the splitter's output verbatim, every token non-empty and free of
whitespace characters (one token per whitespace-separated word). -/
theorem custom_expand_spec (s : String) :
    TorFlag.expand (TorFlag.Custom s) = rustSplitWhitespace s
    ∧ ∀ t ∈ TorFlag.expand (TorFlag.Custom s),
        t ≠ "" ∧ ∀ c ∈ t.data, c.isWhitespace = false := by
  refine ⟨rfl, ?_⟩
  intro t ht
  exact splitWsAux_tokens s.data [] (by simp) t ht

theorem custom_expand_spec_witness :
    TorFlag.expand (TorFlag.Custom "a b") = rustSplitWhitespace "a b"
    ∧ ("a" ≠ "" ∧ ∀ c ∈ "a".data, c.isWhitespace = false) :=
  ⟨(custom_expand_spec "a b").1, (custom_expand_spec "a b").2 "a" (by decide)⟩

/-- C7: `TorBool` renders `True`/`Enabled` as `1` and `False`/`Disabled` as
`0`, the conversion from a native boolean maps `true` to `True` and `false`
to `False`, and rendering the conversion yields `1` exactly for `true` and
`0` exactly for `false`. -/
theorem torBool_render_spec :
    TorBool.render TorBool.True = "1" ∧ TorBool.render TorBool.Enabled = "1"
    ∧ TorBool.render TorBool.False = "0" ∧ TorBool.render TorBool.Disabled = "0"
    ∧ TorBool.ofBool true = TorBool.True ∧ TorBool.ofBool false = TorBool.False
    ∧ ∀ b : Bool, ((TorBool.ofBool b).render = "1" ↔ b = true)
      ∧ ((TorBool.ofBool b).render = "0" ↔ b = false) := by decide

/-- C8: expansion is deterministic — equal directive values yield identical
token lists and identical CLI strings. -/
theorem expand_deterministic (f g : TorFlag) (h : f = g) :
    f.expand = g.expand ∧ f.expand_cli = g.expand_cli := by
  subst h
  exact ⟨rfl, rfl⟩

theorem expand_deterministic_witness :
    TorFlag.expand (TorFlag.SocksPort 9050) = TorFlag.expand (TorFlag.SocksPort 9050)
    ∧ TorFlag.expand_cli (TorFlag.SocksPort 9050) = TorFlag.expand_cli (TorFlag.SocksPort 9050) :=
  expand_deterministic (TorFlag.SocksPort 9050) (TorFlag.SocksPort 9050) rfl

/-- C9: on every flag of the `Log`/`LogTo`/`LogExpanded` family — the only
callers of `log_expand` — the function returns a token list normally and
never reaches the `unimplemented!()` catch-all. -/
theorem logExpand_total_on_log_family (f : TorFlag)
    (h : (∃ l, f = TorFlag.Log l) ∨ (∃ l d, f = TorFlag.LogTo l d)
      ∨ (∃ g d, f = TorFlag.LogExpanded g d)) :
    (logExpand f).isSome = true ∧ logExpand f = some f.expand := by
  rcases h with ⟨l, rfl⟩ | ⟨l, d, rfl⟩ | ⟨g, d, rfl⟩ <;> exact ⟨rfl, rfl⟩

theorem logExpand_total_on_log_family_witness :
    (logExpand (TorFlag.Log LogLevel.Notice)).isSome = true
    ∧ logExpand (TorFlag.Log LogLevel.Notice)
      = some (TorFlag.expand (TorFlag.Log LogLevel.Notice)) :=
  logExpand_total_on_log_family (TorFlag.Log LogLevel.Notice) (Or.inl ⟨LogLevel.Notice, rfl⟩)

/-- C10: whenever no rendered token contains a NUL byte, `Tor::start`
returns `Ok` with the daemon's status byte, and in particular never
produces `Error::NotRunning`. -/
theorem start_never_notRunning (flags : List TorFlag) (run : List String → Nat)
    (h : ∀ s ∈ torArgv flags, Char.ofNat 0 ∉ s.data) :
    Tor.start ⟨flags⟩ run = some (Except.ok (run (torArgv flags) % 256))
    ∧ ∀ e : Error, Tor.start ⟨flags⟩ run ≠ some (Except.error e) := by
  have hall : ((torArgv flags).map cstringNew).all Option.isSome = true := by
    rw [List.all_eq_true]
    intro o ho
    rcases List.mem_map.mp ho with ⟨s, hs, rfl⟩
    simp [cstringNew, h s hs]
  constructor
  · simp [Tor.start, hall]
  · intro e
    simp [Tor.start, hall]

theorem start_never_notRunning_witness :
    Tor.start ⟨[]⟩ (fun _ => 0) = some (Except.ok (0 % 256))
    ∧ ∀ e : Error, Tor.start ⟨[]⟩ (fun _ => 0) ≠ some (Except.error e) :=
  start_never_notRunning [] (fun _ => 0) (by decide)

end Libtor
